import Mathlib

/-!
Verification of the FLEASY relay bot (src/main.py, src/models.py).

The bot relays messages from users to a single owner.  We shallowly embed
the persistence layer (User / Request / Ban / Setting records), the two
pieces of in-memory session state (the single "awaiting reply" slot and the
per-user cooldown map), and the event handlers (`user_or_admin_text`,
`on_confirm_callback`, the admin reply/reject buttons, ban/unban commands
and the clean-all confirmation) as a step function over an explicit state.
Timestamps are naturals (seconds); the transport layer is represented by a
list of abstract outbound messages produced by each step.
-/

namespace Fleasy

/-- `ADMIN_ID` from src/main.py: the single privileged owner identity. -/
def ADMIN_ID : Nat := 7370821047

/-- An inbound Telegram user object (`update.effective_user`): id, optional
username, first name. -/
structure TgUser where
  id : Nat
  username : Option String
  first_name : String
deriving DecidableEq, Repr

/-- A row of the `users` table (src/models.py, class User). -/
structure User where
  user_id : Nat
  username : Option String
  first_name : String
  lang : String
  updated_at : Nat
deriving DecidableEq, Repr

/-- A row of the `requests` table (src/models.py, class Request).
`thread_id` and `part_no` are nullable in the schema. -/
structure Req where
  request_id : Nat
  user_id : Nat
  username : String
  text : String
  status : String
  created_at : Nat
  thread_id : Option Nat
  part_no : Option Nat
deriving DecidableEq, Repr

/-- A row of the `bans` table (src/models.py, class Ban), keyed by user id. -/
structure Ban where
  user_id : Nat
  reason : String
  banned_at : Nat
deriving DecidableEq, Repr

/-- The whole mutable state of the process: the four-table store plus the
in-memory session state (`ADMIN_WAITING_REPLY_FOR`, `COOLDOWN_UNTIL`, and the
per-user `context.user_data["draft_text"]`).  `next_id` models the
autoincrement counter of `requests.request_id`. -/
structure St where
  users : List User
  requests : List Req
  next_id : Nat
  bans : List Ban
  slot : Option Nat
  cooldown : List (Nat × Nat)
  drafts : List (Nat × Option String)
deriving DecidableEq, Repr

/-- Lookup in an association list keyed by `Nat` (a Python dict `.get`). -/
def alookup {α : Type} (k : Nat) : List (Nat × α) → Option α
  | [] => none
  | (k', v) :: t => if k = k' then some v else alookup k t

/-- `COOLDOWN_UNTIL.get(user_id, 0)`. -/
def cooldownUntil (s : St) (uid : Nat) : Nat := (alookup uid s.cooldown).getD 0

/-- `context.user_data.get("draft_text")`: `none` both when the key is absent
and when it was explicitly set to `None`. -/
def draftOf (s : St) (uid : Nat) : Option String := (alookup uid s.drafts).getD none

/-- Python falsiness of the draft (`if not draft:`): `None` or `""`. -/
def draftFalsy : Option String → Bool
  | none => true
  | some d => decide (d = "")

/-- `get_ban` (src/main.py): presence of a Ban row is the ban predicate. -/
def get_ban (s : St) (uid : Nat) : Option Ban :=
  s.bans.find? (fun b => decide (b.user_id = uid))

/-- `ban_user` (src/main.py): create the Ban row, or overwrite reason and
timestamp when it already exists. -/
def ban_user (s : St) (uid : Nat) (reason : String) (now : Nat) : St :=
  match s.bans.find? (fun b => decide (b.user_id = uid)) with
  | none => { s with bans := s.bans ++ [⟨uid, reason, now⟩] }
  | some _ =>
      { s with bans := s.bans.map (fun b => if b.user_id = uid then ⟨uid, reason, now⟩ else b) }

/-- `unban_user` (src/main.py): delete the Ban row if present. -/
def unban_user (s : St) (uid : Nat) : St :=
  { s with bans := s.bans.filter (fun b => decide (b.user_id ≠ uid)) }

/-- `db.session.get(Request, rid)` as used by `get_request` (src/main.py). -/
def get_request (s : St) (rid : Nat) : Option Req :=
  s.requests.find? (fun r => decide (r.request_id = rid))

/-- The stored status of request `rid`, if it exists. -/
def statusOf (s : St) (rid : Nat) : Option String := (get_request s rid).map Req.status

/-- `set_request_status` (src/main.py): update the status of the row with
primary key `rid` when it exists; otherwise no change. -/
def set_request_status (s : St) (rid : Nat) (status : String) : St :=
  { s with requests :=
      s.requests.map (fun r => if r.request_id = rid then { r with status := status } else r) }

/-- The 15-minute thread-continuation window of `create_request`. -/
def fifteenMinutes : Nat := 900

/-- The filter of `create_request`'s `existing` query: same user, status
`pending`, created after `utcnow() - 15 minutes`, non-null `thread_id`. -/
def isRecentPending (now uid : Nat) (r : Req) : Bool :=
  decide (r.user_id = uid) && decide (r.status = "pending")
    && decide (now < r.created_at + fifteenMinutes) && r.thread_id.isSome

/-- All rows matching `create_request`'s `existing` query. -/
def recentPending (s : St) (now uid : Nat) : List Req :=
  s.requests.filter (isRecentPending now uid)

/-- `order_by(desc(created_at)).first()`: a row of maximal `created_at`
(the earliest such row when several tie). -/
def pickLatest : List Req → Option Req
  | [] => none
  | r :: rs =>
      match pickLatest rs with
      | none => some r
      | some m => if r.created_at < m.created_at then some m else some r

/-- `func.max(Request.part_no)` over the rows of thread `tid`, with the
`or 0` fallback of `create_request` (`NULL` part numbers count as 0). -/
def maxPartNo (s : St) (tid : Nat) : Nat :=
  (s.requests.filter (fun r => decide (r.thread_id = some tid))).foldl
    (fun acc r => max acc (r.part_no.getD 0)) 0

/-- The dict returned by `create_request`. -/
structure CreateRes where
  request_id : Nat
  thread_id : Nat
  part_no : Nat
deriving DecidableEq, Repr

/-- `create_request` (src/main.py): continue the newest pending thread of the
last 15 minutes when one exists (`part_no` = max part in that thread + 1),
otherwise start a new thread whose `thread_id` is the new row's own id and
`part_no` is 1. -/
def create_request (s : St) (now uid : Nat) (uname txt : String) : St × CreateRes :=
  match pickLatest (recentPending s now uid) with
  | some ex =>
      let tid := ex.thread_id.getD 0
      let pno := maxPartNo s tid + 1
      let rid := s.next_id
      ({ s with
          requests := s.requests ++ [⟨rid, uid, uname, txt, "pending", now, some tid, some pno⟩],
          next_id := rid + 1 },
       ⟨rid, tid, pno⟩)
  | none =>
      let rid := s.next_id
      ({ s with
          requests := s.requests ++ [⟨rid, uid, uname, txt, "pending", now, some rid, some 1⟩],
          next_id := rid + 1 },
       ⟨rid, rid, 1⟩)

/-- Python `lang or default` / `if lang:` truthiness used by `upsert_user`. -/
def langOrDefault : Option String → String → String
  | none, d => d
  | some l, d => if l = "" then d else l

/-- `upsert_user` (src/main.py): insert the user on first contact (language
defaulting to `"hinglish"`), otherwise refresh handle and name (and language
only when explicitly supplied); `updated_at` is stamped either way. -/
def upsert_user (s : St) (u : TgUser) (lang : Option String) (now : Nat) : St :=
  match s.users.find? (fun w => decide (w.user_id = u.id)) with
  | none =>
      { s with users :=
          s.users ++ [⟨u.id, u.username, u.first_name, langOrDefault lang "hinglish", now⟩] }
  | some _ =>
      { s with users := s.users.map (fun w =>
          if w.user_id = u.id then
            { w with
                username := u.username
                first_name := u.first_name
                lang := langOrDefault lang w.lang
                updated_at := now }
          else w) }

/-- Abstract outbound transport messages, one constructor per
`safe_send_message` / `edit_message_text` call site in the handlers. -/
inductive Out where
  | menuSendInfo (uid : Nat)
  | langChoose (uid : Nat)
  | ownerInfo (uid : Nat)
  | helpInfo (uid : Nat)
  | bannedNotice (uid : Nat)
  | cooldownNotice (uid : Nat)
  | ownerSelfNote (uid : Nat)
  | requestNotFound
  | cannotReplyBanned
  | ownerReplyDelivered (uid : Nat) (body : String)
  | replySentAck
  | confirmPrompt (uid : Nat)
  | writeAgainPrompt (uid : Nat)
  | adminNewRequest (rid tid pno uid : Nat) (body : String)
  | sentToAdminAck (uid : Nat)
  | replyPrompt
  | stampEdit
  | rejectNotice (uid : Nat)
  | rejectedAck
  | notAllowedAlert
  | notOwnerMsg (uid : Nat)
  | banAck (target : Nat)
  | unbanAck (target : Nat)
  | cleanDone
  | cleanCancelled
deriving DecidableEq, Repr

/-- The four bottom-menu button labels handled at the top of
`user_or_admin_text`. -/
def MENU : List String := ["📝 Send Message", "🌐 Language", "👤 Owner", "ℹ️ Help"]

/-- `user_or_admin_text` (src/main.py): menu buttons first; then the
ban/cooldown gates for ordinary users; the owner's reply-completion flow
(`ADMIN_WAITING_REPLY_FOR`); and finally draft capture plus the confirm
prompt for ordinary users. -/
def user_or_admin_text (s : St) (now : Nat) (u : TgUser) (body : String) : St × List Out :=
  if body = "📝 Send Message" then (s, [.menuSendInfo u.id])
  else if body = "🌐 Language" then (upsert_user s u none now, [.langChoose u.id])
  else if body = "👤 Owner" then (s, [.ownerInfo u.id])
  else if body = "ℹ️ Help" then (s, [.helpInfo u.id])
  else if u.id = ADMIN_ID then
    -- owner: self-message check (`if not rid`), then reply completion
    let rid := (s.slot).getD 0
    if rid = 0 then (s, [.ownerSelfNote u.id])
    else
      match get_request s rid with
      | none => ({ s with slot := none }, [.requestNotFound])
      | some req =>
          match get_ban s req.user_id with
          | some _ => ({ s with slot := none }, [.cannotReplyBanned])
          | none =>
              (set_request_status { s with slot := none } rid "approved",
               [.ownerReplyDelivered req.user_id body, .replySentAck])
  else
    match get_ban s u.id with
    | some _ => (s, [.bannedNotice u.id])
    | none =>
        if now < cooldownUntil s u.id then (s, [.cooldownNotice u.id])
        else
          let s1 := upsert_user s u none now
          ({ s1 with drafts := (u.id, some body) :: s1.drafts }, [.confirmPrompt u.id])

/-- `("@" + user.username) if user.username else "(no username)"`. -/
def displayHandle : Option String → String
  | some un => "@" ++ un
  | none => "(no username)"

/-- `on_confirm_callback` (src/main.py): owner presses are ignored; banned
users get the banned notice; "No" clears the draft and re-prompts; "Yes"
with a falsy draft re-prompts; otherwise the request is created, the owner
is notified, the draft is cleared and the 10-second cooldown is armed. -/
def on_confirm_callback (s : St) (now : Nat) (u : TgUser) (yes : Bool) : St × List Out :=
  if u.id = ADMIN_ID then (s, [])
  else
    match get_ban s u.id with
    | some _ => (s, [.bannedNotice u.id])
    | none =>
        if yes then
          match draftOf s u.id with
          | none => (s, [.writeAgainPrompt u.id])
          | some d =>
              if d = "" then (s, [.writeAgainPrompt u.id])
              else
                let sr := create_request s now u.id (displayHandle u.username) d
                ({ sr.1 with
                    drafts := (u.id, none) :: sr.1.drafts
                    cooldown := (u.id, now + 10) :: sr.1.cooldown },
                 [.adminNewRequest sr.2.request_id sr.2.thread_id sr.2.part_no u.id d,
                  .sentToAdminAck u.id])
        else
          ({ s with drafts := (u.id, none) :: s.drafts }, [.writeAgainPrompt u.id])

/-- The `CB_REPLY_PREFIX` branch of `admin_buttons` (src/main.py):
`start_reply(rid)` — non-owners are refused; a missing request or a banned
author aborts; otherwise the single reply slot is overwritten with `rid`. -/
def reply_button (s : St) (fromId rid : Nat) : St × List Out :=
  if fromId = ADMIN_ID then
    match get_request s rid with
    | none => (s, [.requestNotFound])
    | some req =>
        match get_ban s req.user_id with
        | some _ => (s, [.cannotReplyBanned])
        | none => ({ s with slot := some rid }, [.replyPrompt, .stampEdit])
  else (s, [.notAllowedAlert])

/-- The `CB_REJECT_PREFIX` branch of `admin_buttons` (src/main.py):
notify the author unless banned, then unconditionally store status
`rejected`. -/
def reject_button (s : St) (fromId rid : Nat) : St × List Out :=
  if fromId = ADMIN_ID then
    match get_request s rid with
    | none => (s, [.requestNotFound])
    | some req =>
        (set_request_status s rid "rejected",
         (match get_ban s req.user_id with
          | some _ => []
          | none => [Out.rejectNotice req.user_id])
           ++ [.rejectedAck, .stampEdit])
  else (s, [.notAllowedAlert])

/-- `ban_cmd` (src/main.py), with the target id already parsed. -/
def ban_cmd (s : St) (fromId target : Nat) (reason : String) (now : Nat) : St × List Out :=
  if fromId = ADMIN_ID then (ban_user s target reason now, [.banAck target])
  else (s, [.notOwnerMsg fromId])

/-- `unban_cmd` (src/main.py), with the target id already parsed. -/
def unban_cmd (s : St) (fromId target : Nat) : St × List Out :=
  if fromId = ADMIN_ID then (unban_user s target, [.unbanAck target])
  else (s, [.notOwnerMsg fromId])

/-- `clean_callback` (src/main.py): owner-only; "Yes" deletes every Request
row, "No" is a no-op. -/
def clean_callback (s : St) (fromId : Nat) (yes : Bool) : St × List Out :=
  if fromId = ADMIN_ID then
    if yes then ({ s with requests := [] }, [.cleanDone])
    else (s, [.cleanCancelled])
  else (s, [])

/-- The inbound events the dispatcher routes to the handlers above. -/
inductive Ev where
  | text (now : Nat) (u : TgUser) (body : String)
  | confirm (now : Nat) (u : TgUser) (yes : Bool)
  | replyBtn (fromId rid : Nat)
  | rejectBtn (fromId rid : Nat)
  | ban (fromId target : Nat) (reason : String) (now : Nat)
  | unban (fromId target : Nat)
  | clean (fromId : Nat) (yes : Bool)
deriving DecidableEq, Repr

/-- One dispatched event (`Application.add_handler` routing in `main`). -/
def step (e : Ev) (s : St) : St × List Out :=
  match e with
  | .text now u body => user_or_admin_text s now u body
  | .confirm now u yes => on_confirm_callback s now u yes
  | .replyBtn fromId rid => reply_button s fromId rid
  | .rejectBtn fromId rid => reject_button s fromId rid
  | .ban fromId target reason now => ban_cmd s fromId target reason now
  | .unban fromId target => unban_cmd s fromId target
  | .clean fromId yes => clean_callback s fromId yes

/-! ### Search (`search_requests`, `search_cmd`) -/

/-- SQL `LIKE` / `ILIKE` pattern matching over characters: `%` matches any
sequence, `_` matches any single character; other pattern characters match
literally.  Case folding is applied by the caller. -/
def likeMatch : List Char → List Char → Bool
  | [], s => s.isEmpty
  | c :: ps, s =>
      if c = '%' then (s.tails).any (fun t => likeMatch ps t)
      else
        match s with
        | [] => false
        | d :: s' => (if c = '_' then true else c == d) && likeMatch ps s'

/-- Lower-cased character sequence of a string (the case folding of
`ILIKE`). -/
def lowerChars (t : String) : List Char := t.data.map Char.toLower

/-- `column.ilike(f"%{q}%")`: case-insensitive `LIKE` against the pattern
`'%' ++ q ++ '%'`. -/
def ilikeContains (hay q : String) : Bool :=
  likeMatch ('%' :: lowerChars q ++ ['%']) (lowerChars hay)

/-- Plain (wildcard-free) substring occurrence, used to state what the spec
calls a "substring match": `needle` occurs contiguously in `hay`. -/
def containsSub (needle hay : List Char) : Bool :=
  (hay.tails).any (fun t => needle.isPrefixOf t)

/-- A character that is a `LIKE` wildcard. -/
def isWildcard (c : Char) : Bool := c == '%' || c == '_'

/-- Python `str.isdigit()` for ASCII content: non-empty and all digits. -/
def isAllDigits (q : String) : Bool := decide (q ≠ "") && q.data.all Char.isDigit

/-- `int(query)` on an all-digits string. -/
def strToNat (q : String) : Nat := q.data.foldl (fun n c => n * 10 + (c.toNat - 48)) 0

/-- Python `query.startswith('@')`. -/
def startsWithAt (q : String) : Bool :=
  match q.data with
  | '@' :: _ => true
  | _ => false

/-- Python `query[1:]`. -/
def dropFirst (q : String) : String := String.mk (q.data.drop 1)

/-- The filter of `search_requests` (src/main.py): handle `ILIKE` for a
leading `@`, exact id match for all-digit queries, body `ILIKE` otherwise. -/
def matchQ (q : String) (r : Req) : Bool :=
  if startsWithAt q then ilikeContains r.username (dropFirst q)
  else if isAllDigits q then decide (r.user_id = strToNat q) || decide (r.request_id = strToNat q)
  else ilikeContains r.text q

/-- Newest-first ordering on requests (`order_by(desc(created_at))`). -/
def newestReq (a b : Req) : Prop := b.created_at ≤ a.created_at

instance : DecidableRel newestReq := fun a b => Nat.decLe b.created_at a.created_at

instance : IsTotal Req newestReq :=
  ⟨fun a b => Nat.le_total b.created_at a.created_at⟩

instance : IsTrans Req newestReq :=
  ⟨fun _ _ _ h1 h2 => Nat.le_trans h2 h1⟩

/-- `search_requests` (src/main.py): filter, newest first, `limit(10)`. -/
def search_requests (db : List Req) (q : String) : List Req :=
  ((db.filter (matchQ q)).insertionSort newestReq).take 10

/-- The body-text rendering of `search_cmd`:
`(r['text'][:80] + '...') if len(r['text']) > 80 else r['text']`. -/
def truncBody (s : String) : String :=
  if 80 < s.length then String.mk (s.data.take 80) ++ "..." else s

/-! ### User pagination (`get_paginated_users`, `render_status_page`) -/

/-- Most-recently-updated-first ordering on users. -/
def newestUser (a b : User) : Prop := b.updated_at ≤ a.updated_at

instance : DecidableRel newestUser := fun a b => Nat.decLe b.updated_at a.updated_at

instance : IsTotal User newestUser :=
  ⟨fun a b => Nat.le_total b.updated_at a.updated_at⟩

instance : IsTrans User newestUser :=
  ⟨fun _ _ _ h1 h2 => Nat.le_trans h2 h1⟩

/-- `get_paginated_users` (src/main.py): exclude the owner row, order by
`updated_at` descending, return the page slice plus the filtered count. -/
def get_paginated_users (users : List User) (page : Nat) : List User × Nat :=
  let filtered := (users.filter (fun w => decide (w.user_id ≠ ADMIN_ID))).insertionSort newestUser
  ((filtered.drop (page * 20)).take 20, filtered.length)

/-- The "Total Users" figure of `render_status_page`:
`total - 1 if total > 0 else 0`. -/
def displayedTotal (total : Nat) : Nat := if 0 < total then total - 1 else 0

/-! ### Transport retry (`safe_send_message`, `safe_edit_message`) -/

/-- One transport attempt outcome: success, a 429 `RetryAfter` carrying the
transport-supplied delay, a `TelegramError` with its message, or any other
exception. -/
inductive TransportOutcome where
  | ok (msgId : Nat)
  | rateLimited (retryAfter : Nat)
  | tgError (msg : String)
  | otherError
deriving DecidableEq, Repr

/-- The retry loop of `safe_send_message`: `i` is the attempt index, the
second argument the remaining attempts (`max_retries = 3`).  Returns the
result (`None` on give-up) and the list of sleeps performed. -/
def sendAttempts (tr : Nat → TransportOutcome) : Nat → Nat → Option Nat × List Nat
  | _, 0 => (none, [])
  | i, k + 1 =>
      match tr i with
      | .ok m => (some m, [])
      | .rateLimited d =>
          let r := sendAttempts tr (i + 1) k
          (r.1, d :: r.2)
      | .tgError _ => (none, [])
      | .otherError => (none, [])

/-- `safe_send_message` (src/main.py) against a transport `tr` giving the
outcome of each attempt. -/
def safe_send_message (tr : Nat → TransportOutcome) : Option Nat × List Nat :=
  sendAttempts tr 0 3

/-- The result of `safe_edit_message`: the edited message handle, or `True`
for the "message is not modified" case. -/
inductive EditResult where
  | edited (msgId : Nat)
  | unmodifiedOk
deriving DecidableEq, Repr

/-- `"message is not modified" in str(e).lower()`. -/
def isNotModifiedErr (e : String) : Bool :=
  containsSub ("message is not modified".data) (lowerChars e)

/-- The retry loop of `safe_edit_message` (`max_retries = 3`): like the send
loop, but a `TelegramError` whose text contains "message is not modified"
returns `True` (success). -/
def editAttempts (tr : Nat → TransportOutcome) : Nat → Nat → Option EditResult × List Nat
  | _, 0 => (none, [])
  | i, k + 1 =>
      match tr i with
      | .ok m => (some (.edited m), [])
      | .rateLimited d =>
          let r := editAttempts tr (i + 1) k
          (r.1, d :: r.2)
      | .tgError e => if isNotModifiedErr e then (some .unmodifiedOk, []) else (none, [])
      | .otherError => (none, [])

/-- `safe_edit_message` (src/main.py). -/
def safe_edit_message (tr : Nat → TransportOutcome) : Option EditResult × List Nat :=
  editAttempts tr 0 3

/-! ### Settings (`get_setting`) -/

/-- Association lookup keyed by strings (`db.session.get(Setting, key)`);
the stored value column is nullable. -/
def slookup (k : String) : List (String × Option String) → Option (Option String)
  | [] => none
  | (k', v) :: t => if k = k' then some v else slookup k t

/-- `key.upper().replace("_", "")`. -/
def envKeyName (key : String) : String :=
  String.mk ((key.data.map Char.toUpper).filter (fun c => decide (c ≠ '_')))

/-- `get_setting` (src/main.py): the stored value when the row exists, else
the environment variable named by the uppercased, underscore-stripped key. -/
def get_setting (settings : List (String × Option String)) (env : String → Option String)
    (key : String) : Option String :=
  match slookup key settings with
  | some v => v
  | none => env (envKeyName key)

/-! ### Generic helper lemmas -/

theorem sendAttempts_congr (tr tr' : Nat → TransportOutcome) :
    ∀ (k i : Nat), (∀ j, i ≤ j → j < i + k → tr j = tr' j) →
      sendAttempts tr i k = sendAttempts tr' i k := by
  intro k
  induction k with
  | zero => intro i _; rfl
  | succ k ih =>
      intro i h
      have h0 : tr i = tr' i := h i (Nat.le_refl i) (by omega)
      simp only [sendAttempts, h0]
      cases tr' i with
      | ok m => rfl
      | rateLimited d =>
          have := ih (i + 1) (fun j h1 h2 => h j (by omega) (by omega))
          simp [this]
      | tgError e => rfl
      | otherError => rfl

theorem editAttempts_congr (tr tr' : Nat → TransportOutcome) :
    ∀ (k i : Nat), (∀ j, i ≤ j → j < i + k → tr j = tr' j) →
      editAttempts tr i k = editAttempts tr' i k := by
  intro k
  induction k with
  | zero => intro i _; rfl
  | succ k ih =>
      intro i h
      have h0 : tr i = tr' i := h i (Nat.le_refl i) (by omega)
      simp only [editAttempts, h0]
      cases tr' i with
      | ok m => rfl
      | rateLimited d =>
          have := ih (i + 1) (fun j h1 h2 => h j (by omega) (by omega))
          simp [this]
      | tgError e => rfl
      | otherError => rfl

/-! ### C9: bounded retry of the transport helpers -/

/-- C9: `safe_send_message` and `safe_edit_message` consult the transport at
most 3 times (their result only depends on the first three attempt
outcomes); when every attempt is rate-limited they sleep exactly the three
transport-supplied delays and give up returning `None` (no exception — the
functions are total); a first-attempt success returns immediately; a
non-rate-limit transport error gives up at once with `None`; and an edit
failing with "message is not modified" is treated as success. -/
theorem c9_transport_retry (tr tr' : Nat → TransportOutcome) (d : Nat → Nat) (e : String) :
    ((∀ i, i < 3 → tr i = tr' i) →
        safe_send_message tr = safe_send_message tr'
          ∧ safe_edit_message tr = safe_edit_message tr')
    ∧ ((∀ i, tr i = .rateLimited (d i)) →
        safe_send_message tr = (none, [d 0, d 1, d 2])
          ∧ safe_edit_message tr = (none, [d 0, d 1, d 2]))
    ∧ (tr 0 = .tgError e → isNotModifiedErr e = true →
        safe_edit_message tr = (some .unmodifiedOk, []))
    ∧ (∀ m, tr 0 = .ok m →
        safe_send_message tr = (some m, []) ∧ safe_edit_message tr = (some (.edited m), []))
    ∧ (tr 0 = .tgError e → safe_send_message tr = (none, []))
    ∧ (tr 0 = .otherError →
        safe_send_message tr = (none, []) ∧ safe_edit_message tr = (none, [])) := by
  refine ⟨?_, ?_, ?_, ?_, ?_, ?_⟩
  · intro h
    constructor
    · exact sendAttempts_congr tr tr' 3 0 (fun j _ h2 => h j (by omega))
    · exact editAttempts_congr tr tr' 3 0 (fun j _ h2 => h j (by omega))
  · intro h
    constructor
    · simp [safe_send_message, sendAttempts, h 0, h 1, h 2]
    · simp [safe_edit_message, editAttempts, h 0, h 1, h 2]
  · intro h he
    simp [safe_edit_message, editAttempts, h, he]
  · intro m h
    constructor
    · simp [safe_send_message, sendAttempts, h]
    · simp [safe_edit_message, editAttempts, h]
  · intro h
    simp [safe_send_message, sendAttempts, h]
  · intro h
    constructor
    · simp [safe_send_message, sendAttempts, h]
    · simp [safe_edit_message, editAttempts, h]

/-- A transport that is always rate-limited with delay 4, used to witness
C9 concretely. -/
def alwaysLimited : Nat → TransportOutcome := fun _ => .rateLimited 4

theorem c9_transport_retry_witness :
    safe_send_message alwaysLimited = (none, [4, 4, 4])
      ∧ safe_edit_message (fun _ => .tgError "Bad Request: MESSAGE is Not Modified")
          = (some .unmodifiedOk, []) := by
  constructor
  · exact ((c9_transport_retry alwaysLimited alwaysLimited (fun _ => 4) "").2.1
      (fun i => rfl)).1
  · exact (c9_transport_retry (fun _ => .tgError "Bad Request: MESSAGE is Not Modified")
      (fun _ => .otherError) (fun _ => 0) "Bad Request: MESSAGE is Not Modified").2.2.1
      rfl (by decide)

/-! ### C10: `get_setting` environment fallback -/

/-- C10: when no Setting row exists for `key`, `get_setting` falls back to
the environment variable named by the key uppercased with underscores
removed (`admin_group_id` ↦ `ADMINGROUPID`), and returns `None` exactly
when that variable is also absent. -/
theorem c10_get_setting_fallback (settings : List (String × Option String))
    (env : String → Option String) (key : String) :
    (slookup key settings = none →
        get_setting settings env key = env (envKeyName key)
          ∧ (get_setting settings env key = none ↔ env (envKeyName key) = none))
    ∧ envKeyName "admin_group_id" = "ADMINGROUPID" := by
  constructor
  · intro h
    constructor
    · simp [get_setting, h]
    · simp [get_setting, h]
  · decide

theorem c10_get_setting_fallback_witness :
    get_setting [] (fun k => if k = "ADMINGROUPID" then some "-1001" else none)
        "admin_group_id" = some "-1001" := by
  have h := (c10_get_setting_fallback []
    (fun k => if k = "ADMINGROUPID" then some "-1001" else none) "admin_group_id").1 rfl
  rw [h.1]
  decide

/-! ### C7: search modes, result cap, ordering, truncation -/

theorem bool_eq_of_true_iff {a b : Bool} (h : a = true ↔ b = true) : a = b := by
  cases a <;> cases b <;> simp_all

theorem isPrefixOf_iff_exists :
    ∀ (q t : List Char), q.isPrefixOf t = true ↔ ∃ r, t = q ++ r
  | [], t => by simp [List.isPrefixOf]
  | c :: q, [] => by simp [List.isPrefixOf]
  | c :: q, d :: t' => by
      rw [show (c :: q).isPrefixOf (d :: t') = (c == d && q.isPrefixOf t') from rfl]
      rw [Bool.and_eq_true, beq_iff_eq, isPrefixOf_iff_exists q t']
      constructor
      · rintro ⟨h1, r, h2⟩
        exact ⟨r, by rw [h1, h2]; rfl⟩
      · rintro ⟨r, h⟩
        injection h with h1 h2
        exact ⟨h1.symm, r, h2⟩

theorem likeMatch_cons (c : Char) (ps : List Char) (s : List Char) :
    likeMatch (c :: ps) s
      = if c = '%' then (s.tails).any (fun t => likeMatch ps t)
        else match s with
          | [] => false
          | d :: s' => (if c = '_' then true else c == d) && likeMatch ps s' := by
  rw [likeMatch.eq_def]

theorem likeMatch_percent_nil (s : List Char) : likeMatch ['%'] s = true := by
  have h : ([] : List Char) ∈ s.tails := (List.mem_tails _ _).mpr ⟨s, by simp⟩
  rw [likeMatch_cons, if_pos rfl, List.any_eq_true]
  exact ⟨[], h, rfl⟩

theorem likeMatch_literal (q : List Char) (hq : ∀ c ∈ q, isWildcard c = false) :
    ∀ s, likeMatch (q ++ ['%']) s = true ↔ ∃ r, s = q ++ r := by
  induction q with
  | nil => intro s; simpa using likeMatch_percent_nil s
  | cons c q ih =>
      have hc : isWildcard c = false := hq c (List.mem_cons_self c q)
      have hc1 : c ≠ '%' := by
        intro h; rw [h] at hc; simp [isWildcard] at hc
      have hc2 : c ≠ '_' := by
        intro h; rw [h] at hc; simp [isWildcard] at hc
      have ih' := ih (fun x hx => hq x (List.mem_cons_of_mem c hx))
      intro s
      cases s with
      | nil =>
          rw [List.cons_append, likeMatch_cons, if_neg hc1]
          simp
      | cons d s' =>
          rw [List.cons_append, likeMatch_cons, if_neg hc1]
          rw [show ((match d :: s' with
              | [] => false
              | d :: s' => (if c = '_' then true else c == d) && likeMatch (q ++ ['%']) s') : Bool)
              = ((if c = '_' then true else c == d) && likeMatch (q ++ ['%']) s') from rfl]
          rw [if_neg hc2, Bool.and_eq_true, beq_iff_eq, ih' s']
          constructor
          · rintro ⟨h1, r, h2⟩
            exact ⟨r, by rw [h1, h2]; rfl⟩
          · rintro ⟨r, h⟩
            injection h with h1 h2
            exact ⟨h1.symm, r, h2⟩

theorem ilike_wildcard_free (hay q : String)
    (hq : ∀ c ∈ lowerChars q, isWildcard c = false) :
    ilikeContains hay q = containsSub (lowerChars q) (lowerChars hay) := by
  apply bool_eq_of_true_iff
  rw [ilikeContains, List.cons_append, likeMatch_cons, if_pos rfl, containsSub]
  rw [List.any_eq_true, List.any_eq_true]
  constructor
  · rintro ⟨t, ht, hm⟩
    exact ⟨t, ht, (isPrefixOf_iff_exists _ t).mpr ((likeMatch_literal _ hq t).mp hm)⟩
  · rintro ⟨t, ht, hm⟩
    exact ⟨t, ht, (likeMatch_literal _ hq t).mpr ((isPrefixOf_iff_exists _ t).mp hm)⟩

/-- C7 (amended): the query-shape mode selection of `search_requests` —
leading `@` matches the stored handle, an all-digits query matches user id
or request id exactly, anything else matches the body — but the two textual
modes are SQL `ILIKE` pattern matches against `%query%` (where `%` and `_`
are wildcards), which coincides with a case-insensitive substring match
exactly for wildcard-free queries; every query returns at most 10 results
ordered newest first, and each rendered result line's body text is
truncated to its first 80 characters (plus an ellipsis). -/
theorem c7_search_modes (db : List Req) (q : String) :
    (search_requests db q).length ≤ 10
    ∧ List.Sorted newestReq (search_requests db q)
    ∧ (∀ r ∈ search_requests db q, r ∈ db ∧ matchQ q r = true)
    ∧ (startsWithAt q = true →
        ∀ r, matchQ q r = ilikeContains r.username (dropFirst q))
    ∧ (startsWithAt q = false → isAllDigits q = true →
        ∀ r, matchQ q r
          = (decide (r.user_id = strToNat q) || decide (r.request_id = strToNat q)))
    ∧ (startsWithAt q = false → isAllDigits q = false →
        ∀ r, matchQ q r = ilikeContains r.text q)
    ∧ (∀ hay pat : String, (∀ c ∈ lowerChars pat, isWildcard c = false) →
        ilikeContains hay pat = containsSub (lowerChars pat) (lowerChars hay))
    ∧ (∀ s : String, s.length ≤ 80 → truncBody s = s)
    ∧ (∀ s : String, 80 < s.length →
        truncBody s = String.mk (s.data.take 80) ++ "..."
          ∧ (String.mk (s.data.take 80)).length = 80) := by
  refine ⟨?_, ?_, ?_, ?_, ?_, ?_, ?_, ?_, ?_⟩
  · exact List.length_take_le 10 _
  · exact List.Pairwise.sublist (List.take_sublist 10 _)
      (List.sorted_insertionSort newestReq _)
  · intro r hr
    have h1 : r ∈ (db.filter (matchQ q)).insertionSort newestReq :=
      (List.take_sublist 10 _).subset hr
    have h2 : r ∈ db.filter (matchQ q) :=
      (List.perm_insertionSort newestReq _).subset h1
    exact ⟨(List.mem_filter.mp h2).1, (List.mem_filter.mp h2).2⟩
  · intro h r; simp only [matchQ, h, if_true]
  · intro h1 h2 r
    simp only [matchQ, h1, h2, if_true, if_false, Bool.false_eq_true]
  · intro h1 h2 r
    simp only [matchQ, h1, h2, if_false, Bool.false_eq_true]
  · exact fun hay pat hp => ilike_wildcard_free hay pat hp
  · intro s hs
    simp [truncBody, Nat.not_lt.mpr hs]
  · intro s hs
    refine ⟨by simp [truncBody, hs], ?_⟩
    have h : s.data.length = s.length := rfl
    simp only [String.length]
    rw [List.length_take]
    omega

/-- The row used in the C7 counterexample and witness. -/
def reqC7 : Req := ⟨1, 5, "@alice", "abc", "pending", 0, some 1, some 1⟩

/-- C7 counterexample: the query `"a_c"` has no leading `@` and is not all
digits, so per the claim it should be a substring match on the body; but
the code's `ILIKE` treats `_` as a single-character wildcard, so the
request with body `"abc"` is returned even though `"abc"` does not contain
`"a_c"` as a substring. -/
theorem c7_search_counterexample :
    search_requests [reqC7] "a_c" = [reqC7]
      ∧ containsSub (lowerChars "a_c") (lowerChars "abc") = false
      ∧ startsWithAt "a_c" = false ∧ isAllDigits "a_c" = false
      ∧ reqC7.text = "abc" := by
  refine ⟨by decide, by decide, by decide, by decide, rfl⟩

theorem c7_search_modes_witness :
    matchQ "@lic" reqC7 = ilikeContains "@alice" "lic"
      ∧ (search_requests [reqC7] "@lic").length ≤ 10
      ∧ ilikeContains "@alice" "lic" = containsSub (lowerChars "lic") (lowerChars "@alice") := by
  have h := c7_search_modes [reqC7] "@lic"
  refine ⟨?_, h.1, ?_⟩
  · have h2 := h.2.2.2.1 (by decide) reqC7
    have h3 : dropFirst "@lic" = "lic" := by decide
    rw [h2, h3]
    rfl
  · exact h.2.2.2.2.2.2.1 "@alice" "lic" (by decide)

/-! ### C8: user pagination and the displayed total -/

/-- C8 (amended): each page of `get_paginated_users` holds at most 20 users,
ordered most-recently-updated first, every listed user is a stored non-owner
user, and the returned total equals the number of non-owner users in the
store; but the figure rendered as "Total Users" is that number minus one
(clamped at zero), not the number itself. -/
theorem c8_pagination (users : List User) (page : Nat) :
    (get_paginated_users users page).1.length ≤ 20
    ∧ List.Sorted newestUser (get_paginated_users users page).1
    ∧ (∀ w ∈ (get_paginated_users users page).1, w.user_id ≠ ADMIN_ID ∧ w ∈ users)
    ∧ (get_paginated_users users page).2
        = (users.filter (fun w => decide (w.user_id ≠ ADMIN_ID))).length
    ∧ displayedTotal (get_paginated_users users page).2
        = (users.filter (fun w => decide (w.user_id ≠ ADMIN_ID))).length - 1 := by
  have hsub := (List.take_sublist 20
      ((((users.filter (fun w => decide (w.user_id ≠ ADMIN_ID))).insertionSort
        newestUser)).drop (page * 20))).trans
    (List.drop_sublist (page * 20)
      ((users.filter (fun w => decide (w.user_id ≠ ADMIN_ID))).insertionSort newestUser))
  have hlen : (get_paginated_users users page).2
      = (users.filter (fun w => decide (w.user_id ≠ ADMIN_ID))).length :=
    (List.perm_insertionSort newestUser _).length_eq
  refine ⟨List.length_take_le 20 _, ?_, ?_, hlen, ?_⟩
  · exact List.Pairwise.sublist hsub (List.sorted_insertionSort newestUser _)
  · intro w hw
    have h1 : w ∈ (users.filter (fun v => decide (v.user_id ≠ ADMIN_ID))).insertionSort
        newestUser := hsub.subset hw
    have h2 : w ∈ users.filter (fun v => decide (v.user_id ≠ ADMIN_ID)) :=
      (List.perm_insertionSort newestUser _).subset h1
    exact ⟨of_decide_eq_true (List.mem_filter.mp h2).2, (List.mem_filter.mp h2).1⟩
  · rw [hlen, displayedTotal]
    split <;> omega

/-- An ordinary stored user, for the C8 counterexample and witness. -/
def userC8 : User := ⟨5, some "al", "A", "en", 10⟩

/-- The owner's own row, for the C8 witness. -/
def userC8adm : User := ⟨ADMIN_ID, none, "B", "en", 99⟩

/-- C8 counterexample: with exactly one non-owner user in the store the
reported total is 1 but the rendered "Total Users" figure is 0, so the
displayed count does not equal the number of non-owner users. -/
theorem c8_pagination_counterexample :
    (get_paginated_users [userC8] 0).2 = 1
      ∧ displayedTotal (get_paginated_users [userC8] 0).2 = 0
      ∧ userC8.user_id ≠ ADMIN_ID := by
  refine ⟨by decide, by decide, by decide⟩

theorem c8_pagination_witness :
    userC8.user_id ≠ ADMIN_ID
      ∧ userC8 ∈ [userC8, userC8adm]
      ∧ displayedTotal (get_paginated_users [userC8, userC8adm] 0).2
          = ([userC8, userC8adm].filter (fun w => decide (w.user_id ≠ ADMIN_ID))).length - 1 := by
  have h := c8_pagination [userC8, userC8adm] 0
  have hm := h.2.2.1 userC8 (by decide)
  exact ⟨hm.1, hm.2, h.2.2.2.2⟩

/-! ### State-machine helper lemmas -/

theorem find?_req_update (l : List Req) (rid rid' : Nat) (st : String) :
    (l.map (fun r => if r.request_id = rid' then { r with status := st } else r)).find?
        (fun r => decide (r.request_id = rid))
      = if rid = rid'
          then (l.find? (fun r => decide (r.request_id = rid))).map
            (fun r => { r with status := st })
          else l.find? (fun r => decide (r.request_id = rid)) := by
  induction l with
  | nil => split <;> rfl
  | cons r t ih =>
      by_cases h1 : r.request_id = rid' <;> by_cases h2 : r.request_id = rid <;>
        by_cases h3 : rid = rid' <;>
          simp_all [List.find?_cons]

theorem get_request_set (s : St) (rid rid' : Nat) (st : String) :
    get_request (set_request_status s rid' st) rid
      = if rid = rid'
          then (get_request s rid).map (fun r => { r with status := st })
          else get_request s rid := by
  simpa [get_request, set_request_status] using find?_req_update s.requests rid rid' st

theorem statusOf_set_self (s : St) (rid : Nat) (st : String)
    (h : (get_request s rid).isSome) :
    statusOf (set_request_status s rid st) rid = some st := by
  obtain ⟨r, hr⟩ := Option.isSome_iff_exists.mp h
  simp [statusOf, get_request_set, hr]

theorem statusOf_set_ne (s : St) (rid rid' : Nat) (st : String) (h : rid ≠ rid') :
    statusOf (set_request_status s rid' st) rid = statusOf s rid := by
  simp [statusOf, get_request_set, h]

theorem upsert_user_requests (s : St) (u : TgUser) (lang : Option String) (now : Nat) :
    (upsert_user s u lang now).requests = s.requests := by
  unfold upsert_user; split <;> rfl

theorem upsert_user_bans (s : St) (u : TgUser) (lang : Option String) (now : Nat) :
    (upsert_user s u lang now).bans = s.bans := by
  unfold upsert_user; split <;> rfl

theorem upsert_user_slot (s : St) (u : TgUser) (lang : Option String) (now : Nat) :
    (upsert_user s u lang now).slot = s.slot := by
  unfold upsert_user; split <;> rfl

theorem upsert_user_cooldown (s : St) (u : TgUser) (lang : Option String) (now : Nat) :
    (upsert_user s u lang now).cooldown = s.cooldown := by
  unfold upsert_user; split <;> rfl

theorem upsert_user_drafts (s : St) (u : TgUser) (lang : Option String) (now : Nat) :
    (upsert_user s u lang now).drafts = s.drafts := by
  unfold upsert_user; split <;> rfl

theorem create_request_shape (s : St) (now uid : Nat) (uname txt : String) :
    (create_request s now uid uname txt).1.requests
        = s.requests
          ++ [⟨s.next_id, uid, uname, txt, "pending", now,
                some (create_request s now uid uname txt).2.thread_id,
                some (create_request s now uid uname txt).2.part_no⟩]
      ∧ (create_request s now uid uname txt).2.request_id = s.next_id
      ∧ (create_request s now uid uname txt).1.bans = s.bans
      ∧ (create_request s now uid uname txt).1.slot = s.slot
      ∧ (create_request s now uid uname txt).1.cooldown = s.cooldown
      ∧ (create_request s now uid uname txt).1.drafts = s.drafts
      ∧ (create_request s now uid uname txt).1.users = s.users
      ∧ (create_request s now uid uname txt).1.next_id = s.next_id + 1 := by
  unfold create_request
  split <;> exact ⟨rfl, rfl, rfl, rfl, rfl, rfl, rfl, rfl⟩

theorem pickLatest_none_iff (l : List Req) : pickLatest l = none ↔ l = [] := by
  cases l with
  | nil => simp [pickLatest]
  | cons a t =>
      rw [pickLatest]
      constructor
      · intro h
        split at h <;> simp_all
        split at h <;> simp_all
      · intro h
        simp at h

theorem pickLatest_mem : ∀ (l : List Req) (r : Req), pickLatest l = some r → r ∈ l := by
  intro l
  induction l with
  | nil => intro r h; simp [pickLatest] at h
  | cons a t ih =>
      intro r h
      rw [pickLatest] at h
      split at h
      · injection h with h
        exact h ▸ List.mem_cons_self a t
      · rename_i m heq
        split at h
        · injection h with h
          subst h
          exact List.mem_cons_of_mem a (ih m heq)
        · injection h with h
          exact h ▸ List.mem_cons_self a t

theorem pickLatest_max :
    ∀ (l : List Req) (r : Req), pickLatest l = some r →
      ∀ x ∈ l, x.created_at ≤ r.created_at := by
  intro l
  induction l with
  | nil => intro r h; simp [pickLatest] at h
  | cons a t ih =>
      intro r h x hx
      rw [pickLatest] at h
      split at h
      · rename_i heq
        injection h with h
        have ht : t = [] := (pickLatest_none_iff t).mp heq
        subst ht
        rcases List.mem_singleton.mp hx with rfl
        exact h ▸ Nat.le_refl _
      · rename_i m heq
        split at h
        · rename_i hlt
          injection h with h
          subst h
          rcases List.mem_cons.mp hx with rfl | hxt
          · exact Nat.le_of_lt hlt
          · exact ih m heq x hxt
        · rename_i hlt
          injection h with h
          subst h
          rcases List.mem_cons.mp hx with rfl | hxt
          · exact Nat.le_refl _
          · exact Nat.le_trans (ih m heq x hxt) (Nat.not_lt.mp hlt)

/-- The non-null `thread_id` invariant on the Request store. -/
def threadInv (s : St) : Prop := ∀ r ∈ s.requests, r.thread_id ≠ none

theorem threadInv_set (s : St) (rid : Nat) (st : String) (h : threadInv s) :
    threadInv (set_request_status s rid st) := by
  intro r hr
  rw [set_request_status] at hr
  obtain ⟨a, ha, rfl⟩ := List.mem_map.mp hr
  by_cases hc : a.request_id = rid
  · simpa [hc] using h a ha
  · simpa [hc] using h a ha

theorem threadInv_step (e : Ev) (w : St) (h : threadInv w) : threadInv (step e w).1 := by
  cases e with
  | text now u body =>
      simp only [step, user_or_admin_text]
      split
      · exact h
      split
      · intro r hr; rw [upsert_user_requests] at hr; exact h r hr
      split
      · exact h
      split
      · exact h
      split
      · split
        · exact h
        · split
          · exact h
          · split
            · exact h
            · exact threadInv_set _ _ _ h
      · split
        · exact h
        · split
          · exact h
          · intro r hr
            rw [upsert_user_requests] at hr
            exact h r hr
  | confirm now u yes =>
      simp only [step, on_confirm_callback]
      split
      · exact h
      split
      · exact h
      split
      · split
        · exact h
        · split
          · exact h
          · intro r hr
            rw [(create_request_shape w now u.id (displayHandle u.username) _).1] at hr
            rcases List.mem_append.mp hr with hr | hr
            · exact h r hr
            · rcases List.mem_singleton.mp hr with rfl
              simp
      · exact h
  | replyBtn fromId rid =>
      simp only [step, reply_button]
      split
      · split
        · exact h
        · split
          · exact h
          · exact h
      · exact h
  | rejectBtn fromId rid =>
      simp only [step, reject_button]
      split
      · split
        · exact h
        · exact threadInv_set _ _ _ h
      · exact h
  | ban fromId target reason now =>
      simp only [step, ban_cmd]
      split
      · intro r hr
        have : (ban_user w target reason now).requests = w.requests := by
          unfold ban_user; split <;> rfl
        rw [this] at hr
        exact h r hr
      · exact h
  | unban fromId target =>
      simp only [step, unban_cmd]
      split
      · exact h
      · exact h
  | clean fromId yes =>
      simp only [step, clean_callback]
      split
      · split
        · intro r hr; simp at hr
        · exact h
      · exact h

/-! ### C1: thread continuation and part numbering of `create_request` -/

/-- C1: if the user has a pending request from the last 15 minutes with a
non-null `thread_id`, the new Request joins that (latest such) request's
thread with `part_no` = (max `part_no` already in the thread) + 1; otherwise
it starts a new thread with `part_no` = 1 and `thread_id` equal to its own
`request_id`.  The persisted row always carries the returned (non-null)
`thread_id` and `part_no`, and every step of the system preserves the
invariant that persisted requests have a non-null `thread_id`. -/
theorem c1_create_request_threading (s : St) (now uid : Nat) (uname txt : String) :
    (∀ ex, pickLatest (recentPending s now uid) = some ex →
        ex ∈ recentPending s now uid
        ∧ (∀ x ∈ recentPending s now uid, x.created_at ≤ ex.created_at)
        ∧ (create_request s now uid uname txt).2.thread_id = ex.thread_id.getD 0
        ∧ (create_request s now uid uname txt).2.part_no
            = maxPartNo s (ex.thread_id.getD 0) + 1)
    ∧ (pickLatest (recentPending s now uid) = none →
        recentPending s now uid = []
        ∧ (create_request s now uid uname txt).2.part_no = 1
        ∧ (create_request s now uid uname txt).2.thread_id
            = (create_request s now uid uname txt).2.request_id)
    ∧ ((create_request s now uid uname txt).1.requests
        = s.requests
          ++ [⟨s.next_id, uid, uname, txt, "pending", now,
                some (create_request s now uid uname txt).2.thread_id,
                some (create_request s now uid uname txt).2.part_no⟩]
        ∧ (create_request s now uid uname txt).2.request_id = s.next_id)
    ∧ (∀ (e : Ev) (w : St), threadInv w → threadInv (step e w).1) := by
  refine ⟨?_, ?_, ⟨(create_request_shape s now uid uname txt).1,
    (create_request_shape s now uid uname txt).2.1⟩, fun e w hw => threadInv_step e w hw⟩
  · intro ex hex
    refine ⟨pickLatest_mem _ ex hex, pickLatest_max _ ex hex, ?_, ?_⟩
    · unfold create_request
      rw [hex]
    · unfold create_request
      rw [hex]
  · intro hnone
    refine ⟨(pickLatest_none_iff _).mp hnone, ?_, ?_⟩
    · unfold create_request
      rw [hnone]
    · unfold create_request
      rw [hnone]

/-- A state with one fresh pending request, for the C1 witness. -/
def stC1 : St :=
  ⟨[], [⟨1, 7, "@al", "hello", "pending", 100, some 1, some 1⟩], 2, [], none, [], []⟩

theorem c1_create_request_threading_witness :
    (create_request stC1 200 7 "@al" "more").2.thread_id = 1
      ∧ (create_request stC1 200 7 "@al" "more").2.part_no = 2
      ∧ (create_request stC1 2000 7 "@al" "late").2.part_no = 1
      ∧ (create_request stC1 2000 7 "@al" "late").2.thread_id
          = (create_request stC1 2000 7 "@al" "late").2.request_id := by
  have h1 := (c1_create_request_threading stC1 200 7 "@al" "more").1
    ⟨1, 7, "@al", "hello", "pending", 100, some 1, some 1⟩ (by decide)
  have h2 := (c1_create_request_threading stC1 2000 7 "@al" "late").2.1 (by decide)
  refine ⟨?_, ?_, h2.2.1, h2.2.2⟩
  · rw [h1.2.2.1]; decide
  · rw [h1.2.2.2]; decide

/-! ### C6: empty or missing draft at confirmation time -/

/-- C6: a confirmation event with an empty or missing draft never creates a
Request — the Request store is untouched both on an explicit "No" and on a
"Yes" whose stored draft is missing or empty — and for an ordinary,
non-banned user both cases behave identically, answering with the
re-enter prompt only. -/
theorem c6_empty_draft (s : St) (u : TgUser) (now : Nat) :
    ((step (.confirm now u false) s).1.requests = s.requests)
    ∧ (draftFalsy (draftOf s u.id) = true →
        (step (.confirm now u true) s).1.requests = s.requests)
    ∧ (u.id ≠ ADMIN_ID → get_ban s u.id = none →
        (step (.confirm now u false) s).2 = [Out.writeAgainPrompt u.id]
        ∧ (draftFalsy (draftOf s u.id) = true →
            (step (.confirm now u true) s).2 = [Out.writeAgainPrompt u.id])) := by
  refine ⟨?_, ?_, ?_⟩
  · simp only [step, on_confirm_callback]
    split
    · rfl
    · split
      · rfl
      · rfl
  · intro hd
    simp only [step, on_confirm_callback]
    split
    · rfl
    · split
      · rfl
      · cases hdo : draftOf s u.id with
        | none => simp [hdo]
        | some d =>
            rw [hdo] at hd
            have hde : d = "" := of_decide_eq_true hd
            simp [hdo, hde]
  · intro hu hb
    constructor
    · simp only [step, on_confirm_callback, if_neg hu, hb]
      rfl
    · intro hd
      simp only [step, on_confirm_callback, if_neg hu, hb]
      cases hdo : draftOf s u.id with
      | none => simp [hdo]
      | some d =>
          rw [hdo] at hd
          have hde : d = "" := of_decide_eq_true hd
          simp [hdo, hde]

/-- A state with an empty stored draft for user 7, for the C6 witness. -/
def stC6 : St := ⟨[], [], 1, [], none, [], [(7, some "")]⟩

theorem c6_empty_draft_witness :
    ((step (.confirm 0 ⟨7, none, "A"⟩ false) stC6).1.requests = stC6.requests)
      ∧ ((step (.confirm 0 ⟨7, none, "A"⟩ true) stC6).1.requests = stC6.requests)
      ∧ (step (.confirm 0 ⟨7, none, "A"⟩ false) stC6).2 = [Out.writeAgainPrompt 7]
      ∧ (step (.confirm 0 ⟨7, none, "A"⟩ true) stC6).2 = [Out.writeAgainPrompt 7] := by
  have h := c6_empty_draft stC6 ⟨7, none, "A"⟩ 0
  have h3 := h.2.2 (by decide) (by decide)
  exact ⟨h.1, h.2.1 (by decide), h3.1, h3.2 (by decide)⟩

/-! ### C4: the 10-second cooldown and the owner bypass -/

theorem text_cooldown_gate (s2 : St) (u : TgUser) (now : Nat) (body : String)
    (hu : u.id ≠ ADMIN_ID) (hb : get_ban s2 u.id = none)
    (hcd : now < cooldownUntil s2 u.id)
    (h1 : body ≠ "📝 Send Message") (h2 : body ≠ "🌐 Language")
    (h3 : body ≠ "👤 Owner") (h4 : body ≠ "ℹ️ Help") :
    step (.text now u body) s2 = (s2, [Out.cooldownNotice u.id]) := by
  simp only [step, user_or_admin_text, if_neg h1, if_neg h2, if_neg h3, if_neg h4,
    if_neg hu, hb, if_pos hcd]

theorem confirm_success_state (s : St) (u : TgUser) (T : Nat) (d : String)
    (hu : u.id ≠ ADMIN_ID) (hban : get_ban s u.id = none)
    (hdraft : draftOf s u.id = some d) (hd : d ≠ "") :
    (step (.confirm T u true) s).1
      = { (create_request s T u.id (displayHandle u.username) d).1 with
          drafts := (u.id, none)
            :: (create_request s T u.id (displayHandle u.username) d).1.drafts,
          cooldown := (u.id, T + 10)
            :: (create_request s T u.id (displayHandle u.username) d).1.cooldown }
    ∧ (step (.confirm T u true) s).2
      = [Out.adminNewRequest
          (create_request s T u.id (displayHandle u.username) d).2.request_id
          (create_request s T u.id (displayHandle u.username) d).2.thread_id
          (create_request s T u.id (displayHandle u.username) d).2.part_no u.id d,
         Out.sentToAdminAck u.id] := by
  simp only [step, on_confirm_callback, if_neg hu, hban, hdraft, if_neg hd]
  exact ⟨rfl, rfl⟩

/-- C4: a confirmed submission at time `T` arms the user's cooldown until
`T + 10`; until then every further (non-menu) text from that ordinary user
is answered with the cooldown notice and changes nothing — in particular
no new Request row appears and no confirmation prompt is shown, banned or
not; the owner identity bypasses the ban and cooldown gates entirely (its
text events never produce either notice, and confirm callbacks from the
owner are ignored whole). -/
theorem c4_cooldown (s : St) (u : TgUser) (T : Nat) (d : String)
    (hu : u.id ≠ ADMIN_ID) (hban : get_ban s u.id = none)
    (hdraft : draftOf s u.id = some d) (hd : d ≠ "") :
    cooldownUntil (step (.confirm T u true) s).1 u.id = T + 10
    ∧ get_ban (step (.confirm T u true) s).1 u.id = none
    ∧ (∀ (now : Nat) (body : String), now < T + 10 → body ∉ MENU →
        step (.text now u body) (step (.confirm T u true) s).1
          = ((step (.confirm T u true) s).1, [Out.cooldownNotice u.id]))
    ∧ (∀ (s2 : St) (now : Nat) (body : String),
        now < cooldownUntil s2 u.id → body ∉ MENU →
        (step (.text now u body) s2).1.requests = s2.requests
        ∧ Out.confirmPrompt u.id ∉ (step (.text now u body) s2).2)
    ∧ (∀ (s2 : St) (now : Nat) (v : TgUser) (body : String), v.id = ADMIN_ID →
        (∀ x, Out.bannedNotice x ∉ (step (.text now v body) s2).2
            ∧ Out.cooldownNotice x ∉ (step (.text now v body) s2).2)
        ∧ (∀ yes, step (.confirm now v yes) s2 = (s2, []))) := by
  obtain ⟨hstate, houts⟩ := confirm_success_state s u T d hu hban hdraft hd
  have hbans := (create_request_shape s T u.id (displayHandle u.username) d).2.2.1
  have hcd : cooldownUntil (step (.confirm T u true) s).1 u.id = T + 10 := by
    rw [hstate]
    simp [cooldownUntil, alookup]
  have hgb : get_ban (step (.confirm T u true) s).1 u.id = none := by
    rw [hstate]
    have hb' : s.bans.find? (fun b => decide (b.user_id = u.id)) = none := by
      simpa [get_ban] using hban
    simpa [get_ban, hbans] using hb'
  refine ⟨hcd, hgb, ?_, ?_, ?_⟩
  · intro now body hlt hm
    simp only [MENU, List.mem_cons, List.mem_singleton, List.not_mem_nil, or_false,
      not_or] at hm
    obtain ⟨h1, h2, h3, h4⟩ := hm
    exact text_cooldown_gate _ u now body hu hgb (by rw [hcd]; exact hlt) h1 h2 h3 h4
  · intro s2 now body hlt hm
    simp only [MENU, List.mem_cons, List.mem_singleton, List.not_mem_nil, or_false,
      not_or] at hm
    obtain ⟨h1, h2, h3, h4⟩ := hm
    cases hb2 : get_ban s2 u.id with
    | some b =>
        simp only [step, user_or_admin_text, if_neg h1, if_neg h2, if_neg h3, if_neg h4,
          if_neg hu, hb2]
        simp
    | none =>
        simp only [step, user_or_admin_text, if_neg h1, if_neg h2, if_neg h3, if_neg h4,
          if_neg hu, hb2, if_pos hlt]
        simp
  · intro s2 now v body hv
    constructor
    · intro x
      refine ⟨?_, ?_⟩ <;>
        · simp only [step, user_or_admin_text, if_pos hv]
          repeat' split
          all_goals simp
    · intro yes
      simp only [step, on_confirm_callback, if_pos hv]

/-- A state with a pending confirmable draft for user 9 (C4 witness). -/
def stC4 : St := ⟨[], [], 1, [], none, [], [(9, some "hi")]⟩

/-- The ordinary user of the C4 witness. -/
def uC4 : TgUser := ⟨9, some "al", "A"⟩

theorem c4_cooldown_witness :
    cooldownUntil (step (.confirm 100 uC4 true) stC4).1 9 = 110
      ∧ step (.text 105 uC4 "again") (step (.confirm 100 uC4 true) stC4).1
          = ((step (.confirm 100 uC4 true) stC4).1, [Out.cooldownNotice 9]) := by
  have h := c4_cooldown stC4 uC4 100 "hi" (by decide) (by decide) (by decide) (by decide)
  exact ⟨h.1, h.2.2.1 105 "again" (by omega) (by decide)⟩

/-! ### C5: the single-valued awaiting-reply slot -/

theorem get_request_mkslot (s : St) (x : Option Nat) (rid : Nat) :
    get_request { s with slot := x } rid = get_request s rid := rfl

theorem get_ban_mkslot (s : St) (x : Option Nat) (uid : Nat) :
    get_ban { s with slot := x } uid = get_ban s uid := rfl

/-- C5: starting a reply for request A and then for request B (both
existing, authors unbanned) leaves only B in the process-wide slot; the
owner's next text completes request B alone — B becomes `approved`, its
author receives the reply, the slot is cleared — while request A's status
stays `pending`. -/
theorem c5_reply_slot (s s1 s2 : St) (ridA ridB : Nat) (reqA reqB : Req)
    (u : TgUser) (now : Nat) (body : String)
    (hA : get_request s ridA = some reqA) (hB : get_request s ridB = some reqB)
    (hAB : ridA ≠ ridB) (hApend : reqA.status = "pending")
    (hAban : get_ban s reqA.user_id = none) (hBban : get_ban s reqB.user_id = none)
    (hB0 : ridB ≠ 0) (hu : u.id = ADMIN_ID) (hm : body ∉ MENU)
    (hs1 : s1 = (step (.replyBtn ADMIN_ID ridA) s).1)
    (hs2 : s2 = (step (.replyBtn ADMIN_ID ridB) s1).1) :
    s1.slot = some ridA
    ∧ s2.slot = some ridB
    ∧ (step (.text now u body) s2).1.slot = none
    ∧ statusOf (step (.text now u body) s2).1 ridB = some "approved"
    ∧ statusOf (step (.text now u body) s2).1 ridA = some "pending"
    ∧ Out.ownerReplyDelivered reqB.user_id body ∈ (step (.text now u body) s2).2 := by
  simp only [MENU, List.mem_cons, List.mem_singleton, List.not_mem_nil, or_false,
    not_or] at hm
  obtain ⟨h1, h2, h3, h4⟩ := hm
  have e1 : step (.replyBtn ADMIN_ID ridA) s
      = ({ s with slot := some ridA }, [Out.replyPrompt, Out.stampEdit]) := by
    simp only [step, reply_button, if_pos rfl, if_true, hA, hAban]
  have hs1' : s1 = { s with slot := some ridA } := by rw [hs1, e1]
  have e2 : step (.replyBtn ADMIN_ID ridB) s1
      = ({ s1 with slot := some ridB }, [Out.replyPrompt, Out.stampEdit]) := by
    rw [hs1']
    simp only [step, reply_button, if_pos rfl, if_true, get_request_mkslot, hB,
      get_ban_mkslot, hBban]
  have hs2' : s2 = { s with slot := some ridB } := by
    rw [hs2, e2, hs1']
  have e3 : step (.text now u body) s2
      = (set_request_status { s2 with slot := none } ridB "approved",
         [Out.ownerReplyDelivered reqB.user_id body, Out.replySentAck]) := by
    rw [hs2']
    simp only [step, user_or_admin_text, if_neg h1, if_neg h2, if_neg h3, if_neg h4,
      if_pos hu, Option.getD_some, if_neg hB0, get_request_mkslot, hB,
      get_ban_mkslot, hBban]
  refine ⟨by rw [hs1'], by rw [hs2'], ?_, ?_, ?_, ?_⟩
  · rw [e3]; rfl
  · rw [e3]
    exact statusOf_set_self _ ridB "approved"
      (by rw [show get_request { s2 with slot := none } ridB = get_request s2 ridB from rfl,
        hs2', get_request_mkslot, hB]; rfl)
  · rw [e3, statusOf_set_ne _ _ _ _ (fun hx => hAB hx)]
    rw [show statusOf { s2 with slot := none } ridA = statusOf s2 ridA from rfl, hs2']
    simp [statusOf, get_request_mkslot, hA, hApend]
  · rw [e3]
    exact List.mem_cons_self _ _

/-- A state holding two fresh pending requests from different users
(C5 witness). -/
def stC5 : St :=
  ⟨[], [⟨1, 5, "@a", "one", "pending", 0, some 1, some 1⟩,
        ⟨2, 6, "@b", "two", "pending", 0, some 2, some 1⟩], 3, [], none, [], []⟩

theorem c5_reply_slot_witness :
    ((step (.replyBtn ADMIN_ID 2)
        (step (.replyBtn ADMIN_ID 1) stC5).1).1).slot = some 2
      ∧ statusOf (step (.text 9 ⟨ADMIN_ID, none, "O"⟩ "hi there")
          (step (.replyBtn ADMIN_ID 2) (step (.replyBtn ADMIN_ID 1) stC5).1).1).1 2
          = some "approved"
      ∧ statusOf (step (.text 9 ⟨ADMIN_ID, none, "O"⟩ "hi there")
          (step (.replyBtn ADMIN_ID 2) (step (.replyBtn ADMIN_ID 1) stC5).1).1).1 1
          = some "pending"
      ∧ Out.ownerReplyDelivered 6 "hi there" ∈ (step (.text 9 ⟨ADMIN_ID, none, "O"⟩ "hi there")
          (step (.replyBtn ADMIN_ID 2) (step (.replyBtn ADMIN_ID 1) stC5).1).1).2 := by
  have h := c5_reply_slot stC5 (step (.replyBtn ADMIN_ID 1) stC5).1
    (step (.replyBtn ADMIN_ID 2) (step (.replyBtn ADMIN_ID 1) stC5).1).1 1 2
    ⟨1, 5, "@a", "one", "pending", 0, some 1, some 1⟩
    ⟨2, 6, "@b", "two", "pending", 0, some 2, some 1⟩
    ⟨ADMIN_ID, none, "O"⟩ 9 "hi there"
    (by decide) (by decide) (by decide) (by decide) (by decide) (by decide)
    (by decide) (by decide) (by decide) rfl rfl
  exact ⟨h.2.1, h.2.2.2.1, h.2.2.2.2.1, h.2.2.2.2.2⟩

/-! ### C2: the ban gate -/

theorem find?_ban_filter_ne (l : List Ban) (t uid : Nat) (h : uid ≠ t) :
    (l.filter (fun b => decide (b.user_id ≠ t))).find? (fun b => decide (b.user_id = uid))
      = l.find? (fun b => decide (b.user_id = uid)) := by
  induction l with
  | nil => rfl
  | cons b l ih =>
      by_cases h1 : b.user_id = t <;> by_cases h2 : b.user_id = uid <;>
        simp_all [List.find?_cons, List.filter_cons]

theorem find?_ban_map_isSome (l : List Ban) (t uid : Nat) (r : String) (n : Nat) :
    ((l.map (fun b => if b.user_id = t then (⟨t, r, n⟩ : Ban) else b)).find?
        (fun b => decide (b.user_id = uid))).isSome
      = (l.find? (fun b => decide (b.user_id = uid))).isSome := by
  induction l with
  | nil => rfl
  | cons b l ih =>
      by_cases h1 : b.user_id = t <;> by_cases h2 : b.user_id = uid <;>
        simp_all [List.find?_cons]

theorem step_bans_const (e : Ev) (w : St)
    (hb : ∀ f t r n, e ≠ .ban f t r n) (hub : ∀ f t, e ≠ .unban f t) :
    (step e w).1.bans = w.bans := by
  cases e with
  | text now u body =>
      simp only [step, user_or_admin_text]
      repeat' split
      all_goals simp [upsert_user_bans, set_request_status]
  | confirm now u yes =>
      simp only [step, on_confirm_callback]
      repeat' split
      all_goals simp [create_request_shape]
  | replyBtn fromId rid =>
      simp only [step, reply_button]
      repeat' split
      all_goals rfl
  | rejectBtn fromId rid =>
      simp only [step, reject_button]
      repeat' split
      all_goals rfl
  | ban fromId target reason now => exact absurd rfl (hb fromId target reason now)
  | unban fromId target => exact absurd rfl (hub fromId target)
  | clean fromId yes =>
      simp only [step, clean_callback]
      repeat' split
      all_goals rfl

/-- C2 (amended): once a Ban record exists for an ordinary user U, every
text-message event from U *other than the four bottom-menu button labels*
is answered with the banned notice alone and changes nothing (so no Request
is created and no confirmation prompt is shown); menu-button texts still
receive their static menu responses.  Every confirmation callback from U is
likewise answered with the banned notice alone.  While the ban stands, no
event delivers an owner reply or a rejection notice to U, and the Ban
record survives every event except an explicit unban of U by the owner. -/
theorem c2_ban_gate (s : St) (u : TgUser) (b : Ban)
    (hu : u.id ≠ ADMIN_ID) (hb : get_ban s u.id = some b) :
    (∀ (now : Nat) (body : String), body ∉ MENU →
        step (.text now u body) s = (s, [Out.bannedNotice u.id]))
    ∧ (∀ (now : Nat) (yes : Bool),
        step (.confirm now u yes) s = (s, [Out.bannedNotice u.id]))
    ∧ (∀ e : Ev, (∀ x, Out.ownerReplyDelivered u.id x ∉ (step e s).2)
        ∧ Out.rejectNotice u.id ∉ (step e s).2)
    ∧ (∀ e : Ev, e ≠ Ev.unban ADMIN_ID u.id → (get_ban (step e s).1 u.id).isSome) := by
  have hbfind : s.bans.find? (fun x => decide (x.user_id = u.id)) = some b := by
    simpa [get_ban] using hb
  refine ⟨?_, ?_, ?_, ?_⟩
  · intro now body hm
    simp only [MENU, List.mem_cons, List.mem_singleton, List.not_mem_nil, or_false,
      not_or] at hm
    obtain ⟨h1, h2, h3, h4⟩ := hm
    simp only [step, user_or_admin_text, if_neg h1, if_neg h2, if_neg h3, if_neg h4,
      if_neg hu, hb]
  · intro now yes
    simp only [step, on_confirm_callback, if_neg hu, hb]
  · intro e
    cases e with
    | text now v body =>
        by_cases m1 : body = "📝 Send Message"
        · simp [step, user_or_admin_text, m1]
        by_cases m2 : body = "🌐 Language"
        · simp [step, user_or_admin_text, m1, m2]
        by_cases m3 : body = "👤 Owner"
        · simp [step, user_or_admin_text, m1, m2, m3]
        by_cases m4 : body = "ℹ️ Help"
        · simp [step, user_or_admin_text, m1, m2, m3, m4]
        by_cases hv : v.id = ADMIN_ID
        · by_cases r0 : (s.slot).getD 0 = 0
          · simp [step, user_or_admin_text, m1, m2, m3, m4, hv, r0]
          · cases hreq : get_request s ((s.slot).getD 0) with
            | none => simp [step, user_or_admin_text, m1, m2, m3, m4, hv, r0, hreq]
            | some req =>
                cases hban2 : get_ban s req.user_id with
                | some b2 =>
                    simp [step, user_or_admin_text, m1, m2, m3, m4, hv, r0, hreq, hban2]
                | none =>
                    have hne : req.user_id ≠ u.id := by
                      intro hx
                      rw [hx, hb] at hban2
                      exact Option.noConfusion hban2
                    simp [step, user_or_admin_text, m1, m2, m3, m4, hv, r0, hreq, hban2,
                      hne, hne.symm]
        · cases hb3 : get_ban s v.id with
          | some b3 => simp [step, user_or_admin_text, m1, m2, m3, m4, hv, hb3]
          | none =>
              by_cases hcd : now < cooldownUntil s v.id
              · simp [step, user_or_admin_text, m1, m2, m3, m4, hv, hb3, hcd]
              · simp [step, user_or_admin_text, m1, m2, m3, m4, hv, hb3, hcd]
    | confirm now v yes =>
        simp only [step, on_confirm_callback]
        repeat' split
        all_goals simp
    | replyBtn fromId rid =>
        simp only [step, reply_button]
        repeat' split
        all_goals simp
    | rejectBtn fromId rid =>
        by_cases hf : fromId = ADMIN_ID
        · cases hreq : get_request s rid with
          | none => simp [step, reject_button, hf, hreq]
          | some req =>
              cases hban2 : get_ban s req.user_id with
              | some b2 => simp [step, reject_button, hf, hreq, hban2]
              | none =>
                  have hne : req.user_id ≠ u.id := by
                    intro hx
                    rw [hx, hb] at hban2
                    exact Option.noConfusion hban2
                  simp [step, reject_button, hf, hreq, hban2, hne, hne.symm]
        · simp [step, reject_button, hf]
    | ban fromId target reason now =>
        simp only [step, ban_cmd]
        repeat' split
        all_goals simp [ban_user]
    | unban fromId target =>
        simp only [step, unban_cmd]
        repeat' split
        all_goals simp
    | clean fromId yes =>
        simp only [step, clean_callback]
        repeat' split
        all_goals simp
  · intro e hne
    by_cases hbe : ∃ f t r n, e = Ev.ban f t r n
    · obtain ⟨f, t, r, n, rfl⟩ := hbe
      by_cases hf : f = ADMIN_ID
      · simp only [step, ban_cmd, if_pos hf]
        unfold ban_user
        cases hfind : s.bans.find? (fun x => decide (x.user_id = t)) with
        | none =>
            simp only [get_ban, List.find?_append, hbfind]
            rfl
        | some b2 =>
            simp only [get_ban]
            rw [find?_ban_map_isSome, hbfind]
            rfl
      · simp only [step, ban_cmd, if_neg hf, hb]
        rfl
    · by_cases hue : ∃ f t, e = Ev.unban f t
      · obtain ⟨f, t, rfl⟩ := hue
        by_cases hf : f = ADMIN_ID
        · have ht : u.id ≠ t := by
            intro hx
            exact hne (by rw [hf, hx])
          simp only [step, unban_cmd, if_pos hf]
          simp only [get_ban, unban_user]
          rw [find?_ban_filter_ne s.bans t u.id ht, hbfind]
          rfl
        · simp only [step, unban_cmd, if_neg hf, hb]
          rfl
      · have hconst : (step e s).1.bans = s.bans :=
          step_bans_const e s (fun f t r n hx => hbe ⟨f, t, r, n, hx⟩)
            (fun f t hx => hue ⟨f, t, hx⟩)
        have : get_ban (step e s).1 u.id = get_ban s u.id := by
          simp only [get_ban, hconst]
        rw [this, hb]
        rfl

/-- A state in which user 7 is banned (C2 counterexample and witness). -/
def stC2 : St := ⟨[], [], 1, [⟨7, "spam", 0⟩], none, [], []⟩

/-- C2 counterexample: user 7 is banned, yet their text-message event
carrying the menu label "📝 Send Message" is answered with the menu response
and not with the banned notice — the four menu labels are dispatched before
the ban gate. -/
theorem c2_ban_gate_counterexample :
    (get_ban stC2 7).isSome
      ∧ step (.text 0 ⟨7, none, "x"⟩ "📝 Send Message") stC2
          = (stC2, [Out.menuSendInfo 7])
      ∧ Out.bannedNotice 7 ∉ (step (.text 0 ⟨7, none, "x"⟩ "📝 Send Message") stC2).2 := by
  refine ⟨by decide, by decide, by decide⟩

theorem c2_ban_gate_witness :
    step (.text 5 ⟨7, none, "x"⟩ "hello owner") stC2 = (stC2, [Out.bannedNotice 7])
      ∧ step (.confirm 5 ⟨7, none, "x"⟩ true) stC2 = (stC2, [Out.bannedNotice 7])
      ∧ (get_ban (step (.ban ADMIN_ID 7 "again" 9) stC2).1 7).isSome := by
  have h := c2_ban_gate stC2 ⟨7, none, "x"⟩ ⟨7, "spam", 0⟩ (by decide) (by decide)
  exact ⟨h.1 5 "hello owner" (by decide), h.2.1 5 true,
    h.2.2.2 (.ban ADMIN_ID 7 "again" 9) (by decide)⟩

/-! ### C3: request status transitions -/

theorem statusOf_requests_eq (s1 s2 : St) (rid : Nat) (h : s1.requests = s2.requests) :
    statusOf s1 rid = statusOf s2 rid := by
  simp [statusOf, get_request, h]

theorem get_request_append_found (s : St) (row : Req) (rid : Nat) (req : Req)
    (h : get_request s rid = some req) :
    (s.requests ++ [row]).find? (fun r => decide (r.request_id = rid)) = some req := by
  rw [List.find?_append]
  have h' : s.requests.find? (fun r => decide (r.request_id = rid)) = some req := by
    simpa [get_request] using h
  rw [h']
  rfl

/-- C3 (amended): an owner reject on an existing request always stores
status `rejected` — so a repeated reject keeps the status `rejected` while
re-sending the denial notice — and completing an owner reply stores status
`approved` on the slotted request; no other event changes a stored status
(apart from the bulk clear-all, which deletes the rows).  However, these
writes are unguarded: a reject processed after a request was approved (or a
reply completion after a reject) overwrites the resolved status, so the
transitions are not "each exactly once" from `pending` only. -/
theorem c3_status_transitions (s : St) (rid : Nat) :
    (∀ req, get_request s rid = some req →
        statusOf (step (.rejectBtn ADMIN_ID rid) s).1 rid = some "rejected"
        ∧ (get_ban s req.user_id = none →
            Out.rejectNotice req.user_id ∈ (step (.rejectBtn ADMIN_ID rid) s).2))
    ∧ (∀ (now : Nat) (u : TgUser) (body : String) (req : Req),
        u.id = ADMIN_ID → body ∉ MENU → s.slot = some rid → rid ≠ 0 →
        get_request s rid = some req → get_ban s req.user_id = none →
        statusOf (step (.text now u body) s).1 rid = some "approved")
    ∧ (∀ (e : Ev) (st : String), statusOf s rid = some st →
        statusOf (step e s).1 rid = some st
        ∨ (statusOf (step e s).1 rid = some "rejected" ∧ e = .rejectBtn ADMIN_ID rid)
        ∨ (statusOf (step e s).1 rid = some "approved" ∧ s.slot = some rid
            ∧ ∃ now v body, e = .text now v body ∧ v.id = ADMIN_ID)
        ∨ (statusOf (step e s).1 rid = none ∧ e = .clean ADMIN_ID true)) := by
  refine ⟨?_, ?_, ?_⟩
  · intro req hreq
    constructor
    · simp only [step, reject_button, if_pos rfl, if_true, hreq]
      exact statusOf_set_self s rid "rejected" (by rw [hreq]; rfl)
    · intro hbn
      simp only [step, reject_button, if_pos rfl, if_true, hreq, hbn]
      simp
  · intro now u body req hu hm hslot h0 hreq hbn
    simp only [MENU, List.mem_cons, List.mem_singleton, List.not_mem_nil, or_false,
      not_or] at hm
    obtain ⟨m1, m2, m3, m4⟩ := hm
    simp only [step, user_or_admin_text, if_neg m1, if_neg m2, if_neg m3, if_neg m4,
      if_pos hu, hslot, Option.getD_some, if_neg h0, get_request_mkslot, hreq,
      get_ban_mkslot, hbn]
    exact statusOf_set_self _ rid "approved"
      (by rw [show get_request { s with slot := none } rid = get_request s rid from rfl,
        hreq]; rfl)
  · intro e st hst
    have hsome : (get_request s rid).isSome := by
      rcases hx : get_request s rid with _ | r
      · rw [statusOf, hx] at hst; exact Option.noConfusion hst
      · rfl
    cases e with
    | text now v body =>
        by_cases m1 : body = "📝 Send Message"
        · left; simp only [step, user_or_admin_text, if_pos m1]; exact hst
        by_cases m2 : body = "🌐 Language"
        · left
          simp only [step, user_or_admin_text, if_neg m1, if_pos m2]
          rw [statusOf_requests_eq _ s rid (upsert_user_requests s v none now)]
          exact hst
        by_cases m3 : body = "👤 Owner"
        · left; simp [step, user_or_admin_text, m1, m2, m3, hst]
        by_cases m4 : body = "ℹ️ Help"
        · left; simp [step, user_or_admin_text, m1, m2, m3, m4, hst]
        by_cases hv : v.id = ADMIN_ID
        · by_cases r0 : (s.slot).getD 0 = 0
          · left; simp [step, user_or_admin_text, m1, m2, m3, m4, hv, r0, hst]
          · cases hreq : get_request s ((s.slot).getD 0) with
            | none =>
                left
                simp only [step, user_or_admin_text, if_neg m1, if_neg m2, if_neg m3,
                  if_neg m4, if_pos hv, if_neg r0, hreq]
                exact hst
            | some req =>
                cases hban2 : get_ban s req.user_id with
                | some b2 =>
                    left
                    simp only [step, user_or_admin_text, if_neg m1, if_neg m2, if_neg m3,
                      if_neg m4, if_pos hv, if_neg r0, hreq, hban2]
                    exact hst
                | none =>
                    have hslot : s.slot = some ((s.slot).getD 0) := by
                      cases hso : s.slot with
                      | none => rw [hso] at r0; simp at r0
                      | some k => rfl
                    by_cases hrid : rid = (s.slot).getD 0
                    · right; right; left
                      refine ⟨?_, by rw [hslot, ← hrid], now, v, body, rfl, hv⟩
                      simp only [step, user_or_admin_text, if_neg m1, if_neg m2,
                        if_neg m3, if_neg m4, if_pos hv, if_neg r0, hreq, hban2]
                      rw [← hrid]
                      exact statusOf_set_self _ rid "approved"
                        (by rw [show get_request { s with slot := none } rid
                            = get_request s rid from rfl]; exact hsome)
                    · left
                      simp only [step, user_or_admin_text, if_neg m1, if_neg m2,
                        if_neg m3, if_neg m4, if_pos hv, if_neg r0, hreq, hban2]
                      rw [statusOf_set_ne _ rid _ _ hrid]
                      exact hst
        · cases hb3 : get_ban s v.id with
          | some b3 =>
              left
              simp only [step, user_or_admin_text, if_neg m1, if_neg m2, if_neg m3,
                if_neg m4, if_neg hv, hb3]
              exact hst
          | none =>
              by_cases hcd : now < cooldownUntil s v.id
              · left
                simp only [step, user_or_admin_text, if_neg m1, if_neg m2, if_neg m3,
                  if_neg m4, if_neg hv, hb3, if_pos hcd]
                exact hst
              · left
                simp only [step, user_or_admin_text, if_neg m1, if_neg m2, if_neg m3,
                  if_neg m4, if_neg hv, hb3, if_neg hcd]
                rw [show statusOf
                    { upsert_user s v none now with
                      drafts := (v.id, some body) :: (upsert_user s v none now).drafts }
                      rid
                    = statusOf (upsert_user s v none now) rid from rfl]
                rw [statusOf_requests_eq _ s rid (upsert_user_requests s v none now)]
                exact hst
    | confirm now v yes =>
        left
        by_cases hv : v.id = ADMIN_ID
        · simp only [step, on_confirm_callback, if_pos hv]; exact hst
        · cases hb3 : get_ban s v.id with
          | some b3 =>
              simp only [step, on_confirm_callback, if_neg hv, hb3]; exact hst
          | none =>
              cases yes with
              | false =>
                  simp only [step, on_confirm_callback, if_neg hv, hb3,
                    Bool.false_eq_true, if_false]
                  exact hst
              | true =>
                  simp only [step, on_confirm_callback, if_neg hv, hb3, if_true]
                  cases hdo : draftOf s v.id with
                  | none => exact hst
                  | some d =>
                      by_cases hde : d = ""
                      · simp only [if_pos hde]; exact hst
                      · simp only [if_neg hde]
                        obtain ⟨r, hr⟩ := Option.isSome_iff_exists.mp hsome
                        rw [show statusOf
                            { (create_request s now v.id (displayHandle v.username) d).1
                              with
                              drafts := (v.id, none)
                                :: (create_request s now v.id
                                    (displayHandle v.username) d).1.drafts,
                              cooldown := (v.id, now + 10)
                                :: (create_request s now v.id
                                    (displayHandle v.username) d).1.cooldown } rid
                            = statusOf
                              (create_request s now v.id (displayHandle v.username) d).1
                              rid from rfl]
                        rw [statusOf, get_request,
                          (create_request_shape s now v.id (displayHandle v.username) d).1,
                          get_request_append_found s _ rid r hr]
                        rw [statusOf, hr] at hst
                        exact hst
    | replyBtn fromId rid' =>
        left
        by_cases hf : fromId = ADMIN_ID
        · cases hreq : get_request s rid' with
          | none => simp only [step, reply_button, if_pos hf, hreq]; exact hst
          | some req =>
              cases hban2 : get_ban s req.user_id with
              | some b2 =>
                  simp only [step, reply_button, if_pos hf, hreq, hban2]; exact hst
              | none =>
                  simp only [step, reply_button, if_pos hf, hreq, hban2]; exact hst
        · simp only [step, reply_button, if_neg hf]; exact hst
    | rejectBtn fromId rid' =>
        by_cases hf : fromId = ADMIN_ID
        · cases hreq : get_request s rid' with
          | none =>
              left; simp only [step, reject_button, if_pos hf, hreq]; exact hst
          | some req =>
              by_cases hrid : rid = rid'
              · right; left
                subst hrid
                refine ⟨?_, by rw [hf]⟩
                simp only [step, reject_button, if_pos hf, hreq]
                exact statusOf_set_self s rid "rejected" hsome
              · left
                simp only [step, reject_button, if_pos hf, hreq]
                rw [statusOf_set_ne s rid rid' "rejected" hrid]
                exact hst
        · left; simp only [step, reject_button, if_neg hf]; exact hst
    | ban fromId target reason now =>
        left
        by_cases hf : fromId = ADMIN_ID
        · simp only [step, ban_cmd, if_pos hf]
          rw [statusOf_requests_eq _ s rid (by unfold ban_user; split <;> rfl)]
          exact hst
        · simp only [step, ban_cmd, if_neg hf]; exact hst
    | unban fromId target =>
        left
        by_cases hf : fromId = ADMIN_ID
        · simp only [step, unban_cmd, if_pos hf]
          rw [statusOf_requests_eq (unban_user s target) s rid rfl]
          exact hst
        · simp only [step, unban_cmd, if_neg hf]; exact hst
    | clean fromId yes =>
        by_cases hf : fromId = ADMIN_ID
        · cases yes with
          | false =>
              left
              simp only [step, clean_callback, if_pos hf, Bool.false_eq_true, if_false]
              exact hst
          | true =>
              right; right; right
              refine ⟨?_, by rw [hf]⟩
              simp [step, clean_callback, hf, statusOf, get_request]
        · left; simp only [step, clean_callback, if_neg hf]; exact hst

/-- A state holding one pending request from user 5 (C3 counterexample and
witness). -/
def stC3 : St := ⟨[], [⟨1, 5, "@a", "hi", "pending", 0, some 1, some 1⟩], 2, [], none, [], []⟩

/-- C3 counterexample: request 1 is approved via the owner reply flow, and a
later reject callback for the same request overwrites the stored status with
`rejected` — a resolved request does change status later, contradicting
"each exactly once and never otherwise". -/
theorem c3_status_transitions_counterexample :
    statusOf (step (.text 3 ⟨ADMIN_ID, none, "O"⟩ "ok")
        (step (.replyBtn ADMIN_ID 1) stC3).1).1 1 = some "approved"
      ∧ statusOf (step (.rejectBtn ADMIN_ID 1)
          (step (.text 3 ⟨ADMIN_ID, none, "O"⟩ "ok")
            (step (.replyBtn ADMIN_ID 1) stC3).1).1).1 1 = some "rejected" := by
  refine ⟨by decide, by decide⟩

theorem c3_status_transitions_witness :
    statusOf (step (.rejectBtn ADMIN_ID 1) stC3).1 1 = some "rejected"
      ∧ statusOf (step (.rejectBtn ADMIN_ID 1)
          (step (.rejectBtn ADMIN_ID 1) stC3).1).1 1 = some "rejected"
      ∧ Out.rejectNotice 5 ∈ (step (.rejectBtn ADMIN_ID 1)
          (step (.rejectBtn ADMIN_ID 1) stC3).1).2 := by
  have h1 := (c3_status_transitions stC3 1).1
    ⟨1, 5, "@a", "hi", "pending", 0, some 1, some 1⟩ (by decide)
  have h2 := (c3_status_transitions (step (.rejectBtn ADMIN_ID 1) stC3).1 1).1
    ⟨1, 5, "@a", "hi", "rejected", 0, some 1, some 1⟩ (by decide)
  exact ⟨h1.1, h2.1, h2.2 (by decide)⟩

end Fleasy
